import Mathlib

/-!
Verification of the deep-hedging training core of `PyQt5/deep_hedging_gui.py`.

The development shallowly embeds the pieces of the program that the checked
properties talk about:

* the input-tuple assembly of `MainWindow.assemble_data` (the `x_all` list),
* the worker-thread training loop `DH_Worker.run` together with its control
  flags (`stop`, `pause`, `cont`, `is_running`),
* the train/test split arithmetic of `simulate_stock_prices` / `assemble_data`,
* the risk measures (`Entropy`, `CVaR`) and the loss actually computed at each
  mini-batch step,
* the recurrent-architecture delta sub-model construction of
  `MainWindow.Define_DH_Delta_Strategy_Model`.

Machine reals of the source are modelled as `ℝ` (for the analytic loss
identities) or `ℚ` (where execution on concrete inputs is needed); the
Python `int(...)` truncation of nonnegative quantities is modelled by
`Int.floor`/`Int.toNat` on `ℚ`.
-/

set_option maxHeartbeats 1000000

namespace DeepHedging

/-! ## Dataset assembly (`MainWindow.assemble_data`, lines 468-500)

`assemble_data` builds the flat list `self.x_all` of per-time-step tensors.
The tensors themselves are opaque here: the assembly is parametric in the
type `α` of one tensor, in the time-indexed families `tradeSet` (column `i`
of `self.trade_set`) and `infoSet` (column `i` of `self.I`), and in the
terminal-payoff tensor `payoffT` (`self.payoff_T[:,None]`). -/

/-- Symbolic tensors, used to check the *ordering* of the assembled tuple on
concrete inputs: `trade i` stands for `self.trade_set[i,:,None]`, `info i`
for `self.I[i,:,None]`, and `payoffT` for `self.payoff_T[:,None]`. -/
inductive Slot where
  | trade (i : Nat)
  | info (i : Nat)
  | payoffT
deriving DecidableEq

/-- The interleaved prefix (trade signal at step `i`, information signal at
step `i`) for `i = 0 .. n-1`, shared by the code's ordering and by the
ordering claimed in the spec. -/
def interleaved {α : Type} (tradeSet infoSet : Nat → α) : Nat → List α
  | 0 => []
  | n + 1 => interleaved tradeSet infoSet n ++ [tradeSet n, infoSet n]

/-- Translation of the assembly loop of `MainWindow.assemble_data`
(lines 484-489):

    self.x_all = []
    for i in range(self.N+1):
        self.x_all += [self.trade_set[i,:,None]]
        if i != self.N:
            self.x_all += [self.I[i,:,None]]
    self.x_all += [self.payoff_T[:,None]]
-/
def x_all {α : Type} (N : Nat) (tradeSet infoSet : Nat → α) (payoffT : α) : List α :=
  ((List.range (N + 1)).foldl
    (fun acc i => (acc ++ [tradeSet i]) ++ (if i ≠ N then [infoSet i] else [])) []) ++ [payoffT]

/-- The ordering asserted by the spec sentence for `TrainingExample`
(spec §3): interleaved (trade, info) pairs for `i = 0 .. N-1`, followed by
the *information* signal at step `N`, followed by the terminal payoff.
This definition follows the spec's words and is compared against `x_all`,
which is translated from the source. -/
def x_all_specOrder {α : Type} (N : Nat) (tradeSet infoSet : Nat → α) (payoffT : α) : List α :=
  interleaved tradeSet infoSet N ++ [infoSet N, payoffT]

/-! ## Train/test split (`simulate_stock_prices` line 456, `assemble_data`
lines 491-496)

The path count and the test size are computed in the source as

    self.nobs = int(self.Ktrain*(1+self.Ktest_ratio))
    self.test_size = int(self.Ktrain*self.Ktest_ratio)

with `Ktrain` a positive integer and the test fraction a nonnegative machine
number, modelled as a `ℚ`.  `utilities.train_test_split` itself is imported
by the source file but is not part of the repository snapshot. -/

/-- Total number of simulated paths, `int(Ktrain*(1+Ktest_ratio))`. -/
def nobs (Ktrain : ℕ) (testFrac : ℚ) : ℕ :=
  (Int.floor ((Ktrain : ℚ) * (1 + testFrac))).toNat

/-- Number of test paths, `int(Ktrain*Ktest_ratio)`. -/
def test_size (Ktrain : ℕ) (testFrac : ℚ) : ℕ :=
  (Int.floor ((Ktrain : ℚ) * testFrac)).toNat

/-- Modelled from the spec: `utilities.train_test_split` is imported by the
source file but the `utilities` module is not under `src/`.  Spec §4.2: the
split is a non-shuffling train/test split by contiguous index ranges, one
partition taking `test_size` paths and the other the remainder; here the
*last* `test_size` entries along the path dimension form the test set and
the first `length - test_size` entries form the training set. -/
def train_test_split {α : Type} (data : List α) (tSize : Nat) : List α × List α :=
  (data.take (data.length - tSize), data.drop (data.length - tSize))

/-! ## Risk measures and the per-batch loss

The `loss_metrics` module (`Entropy`, `CVaR`) is imported by the source file
but is not under `src/`; both measures are modelled from the spec (§4.4). -/

/-- Configuration constant of the source file (line 60): `loss_type = "Entropy"`.
The accompanying comment documents the convention
`loss_type = "CVaR" -> loss_param = alpha`, `loss_type = "Entropy" -> loss_param = lambda`. -/
def loss_type : String := "Entropy"

/-- Modelled from the spec: `loss_metrics.Entropy` is not under `src/`.
Spec §4.4: given a vector of terminal wealth `W` and risk-aversion `lam > 0`,
the entropic loss is `(1/lam) * log (mean (exp (-lam * W)))`. -/
noncomputable def Entropy (W : List ℝ) (lam : ℝ) : ℝ :=
  (1 / lam) * Real.log ((W.map fun w => Real.exp (-lam * w)).sum / (W.length : ℝ))

/-- Insert a value into an ascending list (helper for `CVaR`). -/
def insertAsc (x : ℚ) : List ℚ → List ℚ
  | [] => [x]
  | y :: ys => if x ≤ y then x :: y :: ys else y :: insertAsc x ys

/-- Sort a list of rationals ascending (helper for `CVaR`). -/
def sortAsc : List ℚ → List ℚ
  | [] => []
  | x :: xs => insertAsc x (sortAsc xs)

/-- Modelled from the spec: `loss_metrics.CVaR` is not under `src/`.
Spec §4.4 and glossary: CVaR at confidence `alpha` is the expected
shortfall, the negated mean of the worst `alpha`-fraction of outcomes; the
worst `alpha`-fraction of an `n`-sample is its `⌈alpha * n⌉` smallest wealth
values. -/
def CVaR (W : List ℚ) (alpha : ℚ) : ℚ :=
  let k := (Int.ceil (alpha * (W.length : ℚ))).toNat
  let worst := (sortAsc W).take k
  Neg.neg (worst.sum / (k : ℚ))

/-- The scalar loss computed at each mini-batch step by `DH_Worker.run`
(line 154): `loss = Entropy(wealth, certainty_equiv, self.loss_param)`.
The call is unconditional — the configured `lossType` is threaded through
faithfully but is never read by the worker, and `CVaR` (imported at line 38)
is never called. -/
noncomputable def DH_loss (lossType : String) (W : List ℝ) (lossParam : ℝ) : ℝ :=
  Entropy W lossParam

/-- The loss the spec says is selected by the loss-type flag: the entropic
measure when `"Entropy"` is selected and CVaR when `"CVaR"` is selected
(`none` for an unsupported flag, spec §7).  This definition follows the
spec's words and is compared against `DH_loss`, which is translated from
the source. -/
noncomputable def selected_loss (lossType : String) (W : List ℚ) (lossParam : ℚ) : Option ℝ :=
  if lossType = "Entropy" then some (Entropy (W.map fun w => (w : ℝ)) (lossParam : ℝ))
  else if lossType = "CVaR" then some ((CVaR W lossParam : ℚ) : ℝ)
  else none

/-! ## The worker training loop (`DH_Worker`, lines 76-170)

The loop state collects the Python attributes that `DH_Worker.run` reads and
writes.  `iterRem = none` models the Python name `mini_batch_iter` being
unbound (before the first iteration) or set to `None`; `iterRem = some r`
models an iterator with `r` mini-batches left to yield.  A freshly built
iterator `training_dataset.shuffle(Ktrain).batch(batch_size).__iter__()`
yields `nb = ceil(Ktrain / batch_size)` batches.

`snaps` records the `(num_epoch, num_batch)` arguments of the
`DH_outputs.emit` calls in order; the emission guard `end - start > 0`
holds whenever the wall clock strictly advances across a mini-batch
computation, which is how real time is modelled here.  `optSteps` counts
`optimizer.apply_gradients` calls.  `finished` records that `run` has
returned, and `errored` that it was terminated by an uncaught exception
propagating out of `run`.

Exceptions in the forward/loss/gradient computation of a mini-batch step
are an input of the model: the environment parameter `fE e b` tells whether
the computation of batch `b` of epoch `e` raises. -/

structure WState where
  exitFlag : Bool
  pauseFlag : Bool
  numEpoch : Nat
  numBatch : Nat
  iterRem : Option Nat
  snaps : List (Nat × Nat)
  optSteps : Nat
  finished : Bool
  errored : Bool
deriving DecidableEq

/-- Worker state at the start of `run`: flags cleared by `__init__`,
`num_epoch = 0`, `mini_batch_iter` unbound, nothing emitted. -/
def initState : WState :=
  ⟨false, false, 0, 0, none, [], 0, false, false⟩

/-- `DH_Worker.stop` (lines 110-112): sets `self._exit = True`.
(The `self.exit()` call only signals the Qt event loop, which `run` never
enters, so it has no effect on the training loop.) -/
def stop (s : WState) : WState :=
  { s with exitFlag := true }

/-- `DH_Worker.pause` (line 104): sets `self._pause = True`. -/
def pause (s : WState) : WState :=
  { s with pauseFlag := true }

/-- `DH_Worker.cont` (line 107): sets `self._pause = False`. -/
def cont (s : WState) : WState :=
  { s with pauseFlag := false }

/-- `DH_Worker.is_running` (lines 114-118): returns `False` if
`self._pause or self._exit`, else `True`. -/
def is_running (s : WState) : Bool :=
  if s.pauseFlag || s.exitFlag then false else true

/-- One mini-batch computation (lines 151-168): forward pass, loss, the
out-of-sample evaluations, gradient and optimizer step, then the snapshot
emission.  If the forward/loss/gradient computation raises (`fE` true at
this epoch/batch), the exception is not caught anywhere in `run`, so `run`
terminates immediately: no optimizer step and no emission happen. -/
def processBatch (fE : Nat → Nat → Bool) (s : WState) : WState :=
  if fE s.numEpoch s.numBatch then
    { s with finished := true, errored := true }
  else
    { s with optSteps := s.optSteps + 1, snaps := s.snaps ++ [(s.numEpoch, s.numBatch)] }

/-- One iteration of the `while num_epoch <= self.epochs` loop of
`DH_Worker.run` (lines 131-170):

* a state with `finished` set is left unchanged (`run` has returned);
* if the while-condition `num_epoch <= epochs` fails, the loop ends;
* else if `self._exit` is set, `mini_batch_iter` is set to `None`, both
  flags are reset to `False` and the loop breaks (lines 133-137);
* else if `self._pause` is set, the iteration only sleeps (line 170);
* otherwise the next mini-batch is drawn inside `try:`: a draw from an
  iterator with batches left succeeds, while an unbound `mini_batch_iter`
  (first iteration) or an exhausted iterator raises and the bare `except:`
  runs `num_batch = 0; num_epoch += 1`, rebuilds the iterator from the
  reshuffled re-batched dataset and draws from it (lines 140-147).  That
  second draw is *outside* the `try:`, so on an empty batched dataset
  (`nb = 0`) it raises and the exception propagates out of `run`.  A drawn
  batch is then processed by `processBatch` with `num_batch` incremented
  (line 149). -/
def loopBody (epochs nb : Nat) (fE : Nat → Nat → Bool) (s : WState) : WState :=
  if s.finished then s
  else if epochs < s.numEpoch then { s with finished := true }
  else if s.exitFlag then
    { s with iterRem := none, exitFlag := false, pauseFlag := false, finished := true }
  else if s.pauseFlag then s
  else
    match s.iterRem with
    | some (r + 1) =>
        processBatch fE { s with iterRem := some r, numBatch := s.numBatch + 1 }
    | _ =>
        match nb with
        | 0 =>
            { s with numEpoch := s.numEpoch + 1, numBatch := 0,
                     finished := true, errored := true }
        | nbpred + 1 =>
            processBatch fE { s with numEpoch := s.numEpoch + 1, numBatch := 1,
                                     iterRem := some nbpred }

/-- `DH_Worker.run`, iterated for `fuel` loop iterations.  The loop itself
has no built-in iteration bound (it spins while paused), so it is driven by
explicit fuel; a state with `finished` set absorbs all remaining fuel. -/
def run (epochs nb : Nat) (fE : Nat → Nat → Bool) : Nat → WState → WState
  | 0, s => s
  | fuel + 1, s => run epochs nb fE fuel (loopBody epochs nb fE s)

/-- Environment in which no forward/loss/gradient computation raises. -/
def noErr : Nat → Nat → Bool := fun _ _ => false

/-- Number of mini-batches yielded per epoch by
`training_dataset.shuffle(Ktrain).batch(batch_size)`: `ceil(Ktrain / batch_size)`
(the final partial batch is kept). -/
def ceilDiv (Ktrain batchSize : Nat) : Nat :=
  (Ktrain + batchSize - 1) / batchSize

/-- The `(num_epoch, num_batch)` pairs emitted by `r` consecutive successful
draws in epoch `e` starting from batch counter `b`. -/
def emitted (e : Nat) : Nat → Nat → List (Nat × Nat)
  | _, 0 => []
  | b, r + 1 => (e, b + 1) :: emitted e (b + 1) r

/-- The pairs emitted by `m` complete epochs of `nb` batches, the first of
which is epoch `e + 1`. -/
def epochsEmitted (nb : Nat) : Nat → Nat → List (Nat × Nat)
  | _, 0 => []
  | e, m + 1 => emitted (e + 1) 0 nb ++ epochsEmitted nb (e + 1) m

/-! ## Recurrent delta sub-model construction
(`MainWindow.Define_DH_Delta_Strategy_Model`, lines 319-346)

For the `"recurrent"` architecture the source walks `self.model.layers` by
index, matching layers *by name*:

    flag_add_layer = False
    num_layers = len(self.model.layers)
    for idx in range(num_layers):
        if self.model.layers[idx].name == "dense_0_" + str(self.days_from_today):
            flag_add_layer = True
        elif self.model.layers[idx].name == "delta_15":
            outputs = self.model.layers[idx](outputs)
            break
        if flag_add_layer_for_submodel:
            outputs = self.model.layers[idx](outputs)
    submodel = Model(inputs=inputs, outputs=outputs)

The name tested by the trailing `if` is `flag_add_layer_for_submodel`,
which is bound nowhere in the program (the flag assigned above is
`flag_add_layer`), so evaluating it raises `NameError`.  Consequently any
loop iteration that does not break on a layer named `"delta_15"` reaches
that line and raises; the loop can never proceed past its first iteration.
A model is built silently only when the layer list is empty (the loop body
never runs) or when the *first* layer is named `"delta_15"`. -/

/-- `self.days_from_today`, set to `15` in `MainWindow.__init__` (line 177). -/
def days_from_today : Nat := 15

/-- Outcome of the recurrent sub-model construction: either a `Model` built
from the layers applied to the concatenated inputs (recorded by index), or a
`NameError` raised at layer index `idx`. -/
inductive SubmodelBuild where
  | built (applied : List Nat)
  | nameError (idx : Nat)
deriving DecidableEq

/-- The layer-walking loop of the `"recurrent"` branch, at index `idx` with
the given remaining layer names.  Every iteration either breaks on a layer
named `"delta_15"` (applying it and building the model) or evaluates the
unbound name `flag_add_layer_for_submodel` and raises `NameError`; an
exhausted loop builds the model from the bare concatenation (no layer
applied, no error). -/
def submodelScan (d : Nat) : Nat → List String → SubmodelBuild
  | _, [] => SubmodelBuild.built []
  | idx, layerName :: _ =>
      if layerName = "dense_0_" ++ toString d then SubmodelBuild.nameError idx
      else if layerName = "delta_15" then SubmodelBuild.built [idx]
      else SubmodelBuild.nameError idx

/-- `MainWindow.Define_DH_Delta_Strategy_Model` for
`strategy_type == "recurrent"`, as a function of the names of
`self.model.layers`. -/
def Define_DH_Delta_Strategy_Model (layers : List String) : SubmodelBuild :=
  submodelScan days_from_today 0 layers

/-- Environment in which every forward/loss/gradient computation raises. -/
def allErr : Nat → Nat → Bool := fun _ _ => true

/-! ## Helper lemmas about the worker loop -/

lemma run_add (E nb : Nat) (fE : Nat → Nat → Bool) (a b : Nat) (s : WState) :
    run E nb fE (a + b) s = run E nb fE b (run E nb fE a s) := by
  induction a generalizing s with
  | zero => rw [Nat.zero_add]; rfl
  | succ a ih =>
      rw [Nat.succ_add]
      show run E nb fE (a + b) (loopBody E nb fE s) = _
      rw [ih (loopBody E nb fE s)]
      rfl

lemma run_one (E nb : Nat) (fE : Nat → Nat → Bool) (s : WState) :
    run E nb fE 1 s = loopBody E nb fE s := rfl

lemma loopBody_finished (E nb : Nat) (fE : Nat → Nat → Bool) (s : WState)
    (h : s.finished = true) : loopBody E nb fE s = s := by
  simp [loopBody, h]

lemma run_of_finished (E nb : Nat) (fE : Nat → Nat → Bool) (fuel : Nat) (s : WState)
    (h : s.finished = true) : run E nb fE fuel s = s := by
  induction fuel with
  | zero => rfl
  | succ fuel ih =>
      show run E nb fE fuel (loopBody E nb fE s) = s
      rw [loopBody_finished E nb fE s h, ih]

lemma run_drain (E nb : Nat) (e : Nat) (he : e ≤ E) :
    ∀ r b k snaps,
      run E nb noErr r ⟨false, false, e, b, some r, snaps, k, false, false⟩
        = ⟨false, false, e, b + r, some 0, snaps ++ emitted e b r, k + r, false, false⟩ := by
  intro r
  induction r with
  | zero => intro b k snaps; simp [run, emitted]
  | succ r ih =>
      intro b k snaps
      have hstep :
          loopBody E nb noErr ⟨false, false, e, b, some (r + 1), snaps, k, false, false⟩
            = ⟨false, false, e, b + 1, some r, snaps ++ [(e, b + 1)], k + 1, false, false⟩ := by
        simp [loopBody, processBatch, noErr, not_lt.mpr he]
      show run E nb noErr r
          (loopBody E nb noErr ⟨false, false, e, b, some (r + 1), snaps, k, false, false⟩) = _
      rw [hstep, ih (b + 1) (k + 1) (snaps ++ [(e, b + 1)])]
      simp [emitted, WState.mk.injEq, List.append_assoc]
      omega

lemma loopBody_rollover (E nb : Nat) (fE : Nat → Nat → Bool) (s : WState)
    (h1 : s.finished = false) (h2 : s.exitFlag = false) (h3 : s.pauseFlag = false)
    (h4 : s.numEpoch ≤ E) (h5 : s.iterRem = none ∨ s.iterRem = some 0)
    (h6 : 0 < nb) (h7 : fE (s.numEpoch + 1) 1 = false) :
    loopBody E nb fE s =
      { s with numEpoch := s.numEpoch + 1, numBatch := 1, iterRem := some (nb - 1),
               snaps := s.snaps ++ [(s.numEpoch + 1, 1)], optSteps := s.optSteps + 1 } := by
  obtain ⟨nbp, rfl⟩ := Nat.exists_eq_succ_of_ne_zero (Nat.pos_iff_ne_zero.mp h6)
  rcases h5 with h5 | h5 <;>
    simp [loopBody, processBatch, h1, h2, h3, h5, h7, not_lt.mpr h4]

lemma run_epoch (E nb : Nat) (hnb : 0 < nb) (e : Nat) (he : e + 1 ≤ E) :
    ∀ b k snaps it, (it = none ∨ it = some 0) →
      run E nb noErr nb ⟨false, false, e, b, it, snaps, k, false, false⟩
        = ⟨false, false, e + 1, nb, some 0, snaps ++ emitted (e + 1) 0 nb,
           k + nb, false, false⟩ := by
  obtain ⟨nbp, rfl⟩ := Nat.exists_eq_succ_of_ne_zero (Nat.pos_iff_ne_zero.mp hnb)
  intro b k snaps it hit
  have hroll :
      loopBody E (nbp + 1) noErr ⟨false, false, e, b, it, snaps, k, false, false⟩
        = ⟨false, false, e + 1, 1, some nbp, snaps ++ [(e + 1, 1)], k + 1, false, false⟩ := by
    have := loopBody_rollover E (nbp + 1) noErr
      ⟨false, false, e, b, it, snaps, k, false, false⟩ rfl rfl rfl
      (Nat.le_of_succ_le he) hit (Nat.succ_pos nbp) rfl
    simpa using this
  show run E (nbp + 1) noErr nbp
      (loopBody E (nbp + 1) noErr ⟨false, false, e, b, it, snaps, k, false, false⟩) = _
  rw [hroll, run_drain E (nbp + 1) (e + 1) he nbp 1 (k + 1) (snaps ++ [(e + 1, 1)])]
  simp [emitted, WState.mk.injEq, List.append_assoc]
  omega

lemma run_epochs (E nb : Nat) (hnb : 0 < nb) :
    ∀ m e b k snaps it, (it = none ∨ it = some 0) → e + m ≤ E →
      run E nb noErr (m * nb) ⟨false, false, e, b, it, snaps, k, false, false⟩
        = ⟨false, false, e + m, (if m = 0 then b else nb), (if m = 0 then it else some 0),
           snaps ++ epochsEmitted nb e m, k + m * nb, false, false⟩ := by
  intro m
  induction m with
  | zero => intro e b k snaps it hit hm; simp [run, epochsEmitted]
  | succ m ih =>
      intro e b k snaps it hit hm
      have hsplit : (m + 1) * nb = nb + m * nb := by ring
      rw [hsplit, run_add, run_epoch E nb hnb e (by omega) b k snaps it hit,
        ih (e + 1) nb (k + nb) (snaps ++ emitted (e + 1) 0 nb) (some 0) (Or.inr rfl) (by omega)]
      simp [epochsEmitted, WState.mk.injEq, List.append_assoc, Nat.succ_mul]
      refine ⟨by omega, by omega⟩

lemma run_complete (E nb : Nat) (hnb : 0 < nb) (fuel : Nat) (hf : E * nb + 2 ≤ fuel) :
    run E nb noErr fuel initState
      = ⟨false, false, E + 1, 1, some (nb - 1),
         epochsEmitted nb 0 E ++ [(E + 1, 1)], E * nb + 1, true, false⟩ := by
  obtain ⟨rest, rfl⟩ : ∃ rest, fuel = E * nb + 1 + 1 + rest :=
    ⟨fuel - (E * nb + 2), by omega⟩
  rw [run_add, run_add, run_add]
  unfold initState
  rw [run_epochs E nb hnb E 0 0 0 [] none (Or.inl rfl) (by omega)]
  have hit : (if E = 0 then (none : Option Nat) else some 0) = none
      ∨ (if E = 0 then (none : Option Nat) else some 0) = some 0 := by
    by_cases hE : E = 0 <;> simp [hE]
  have hroll := loopBody_rollover E nb noErr
    ⟨false, false, 0 + E, (if E = 0 then 0 else nb), (if E = 0 then none else some 0),
      [] ++ epochsEmitted nb 0 E, 0 + E * nb, false, false⟩
    rfl rfl rfl (by simp) hit hnb rfl
  have h1 : run E nb noErr 1
      (⟨false, false, 0 + E, (if E = 0 then 0 else nb), (if E = 0 then none else some 0),
        [] ++ epochsEmitted nb 0 E, 0 + E * nb, false, false⟩ : WState)
      = ⟨false, false, E + 1, 1, some (nb - 1),
          epochsEmitted nb 0 E ++ [(E + 1, 1)], E * nb + 1, false, false⟩ := by
    rw [run_one, hroll]
    simp
  rw [h1]
  have h2 : run E nb noErr 1
      (⟨false, false, E + 1, 1, some (nb - 1),
          epochsEmitted nb 0 E ++ [(E + 1, 1)], E * nb + 1, false, false⟩ : WState)
      = ⟨false, false, E + 1, 1, some (nb - 1),
          epochsEmitted nb 0 E ++ [(E + 1, 1)], E * nb + 1, true, false⟩ := by
    rw [run_one]
    simp [loopBody]
  rw [h2, run_of_finished E nb noErr rest _ rfl]

lemma emitted_length (e : Nat) : ∀ r b, (emitted e b r).length = r := by
  intro r
  induction r with
  | zero => intro b; rfl
  | succ r ih => intro b; simp [emitted, ih]

lemma epochsEmitted_length (nb : Nat) : ∀ m e, (epochsEmitted nb e m).length = m * nb := by
  intro m
  induction m with
  | zero => intro e; simp [epochsEmitted]
  | succ m ih =>
      intro e
      simp [epochsEmitted, emitted_length, ih, Nat.succ_mul]
      omega

lemma loopBody_stop (E nb : Nat) (fE : Nat → Nat → Bool) (s : WState) :
    (loopBody E nb fE (stop s)).finished = true ∧
    (loopBody E nb fE (stop s)).snaps = s.snaps ∧
    (loopBody E nb fE (stop s)).optSteps = s.optSteps := by
  by_cases hf : s.finished = true
  · simp [loopBody, stop, hf]
  · simp only [Bool.not_eq_true] at hf
    by_cases hlt : E < s.numEpoch <;> simp [loopBody, stop, hf, hlt]

/-! ## Helper lemma for the assembly ordering -/

lemma foldl_range_interleaved {α : Type} (tradeSet infoSet : Nat → α) (N : Nat) :
    ∀ M, M ≤ N →
      (List.range M).foldl
          (fun acc j => (acc ++ [tradeSet j]) ++ (if j ≠ N then [infoSet j] else [])) []
        = interleaved tradeSet infoSet M := by
  intro M
  induction M with
  | zero => intro _; rfl
  | succ M ih =>
      intro hM
      rw [List.range_succ, List.foldl_append, ih (by omega)]
      have hne : M ≠ N := by omega
      simp [interleaved, hne]

/-! ## Helper lemma for the split arithmetic -/

lemma nobs_eq (Ktrain : ℕ) (testFrac : ℚ) (hq : 0 ≤ testFrac) :
    nobs Ktrain testFrac = Ktrain + test_size Ktrain testFrac := by
  unfold nobs test_size
  have h1 : (Ktrain : ℚ) * (1 + testFrac) = (Ktrain : ℚ) * testFrac + (Ktrain : ℕ) := by
    ring
  rw [h1, Int.floor_add_nat]
  have h2 : 0 ≤ Int.floor ((Ktrain : ℚ) * testFrac) :=
    Int.floor_nonneg.mpr (by positivity)
  omega

/-! ## Claim theorems -/

/-- C1, counterexample: already for `N = 1` the tuple assembled by
`assemble_data` is not ordered as the spec sentence claims — the element
before the terminal payoff is the trade signal at step `N`, not the
information signal at step `N`. -/
theorem x_all_specOrder_mismatch :
    x_all 1 Slot.trade Slot.info Slot.payoffT
      ≠ x_all_specOrder 1 Slot.trade Slot.info Slot.payoffT := by
  decide

/-- C1, amended: for every assembled dataset with `N` time steps, the
per-path input tuple produced by `assemble_data` is ordered as interleaved
(trade signal at step `i`, information signal at step `i`) for
`i = 0 .. N-1`, then the *trade* signal at step `N`, then the terminal
payoff as the last element. -/
theorem x_all_interleaved_then_trade_at_N {α : Type} (N : Nat)
    (tradeSet infoSet : Nat → α) (payoffT : α) :
    x_all N tradeSet infoSet payoffT
      = interleaved tradeSet infoSet N ++ [tradeSet N, payoffT] := by
  unfold x_all
  rw [List.range_succ, List.foldl_append,
    foldl_range_interleaved tradeSet infoSet N N le_rfl]
  simp

/-- C4: evaluating the recurrent sub-model construction of
`Define_DH_Delta_Strategy_Model` on a layer list that *does* contain the
expected layers `dense_0_15` and `delta_15` (in the position a Keras
functional model would have them, after the input and concatenation
layers) raises `NameError` at the very first loop iteration, because the
loop tests the unbound name `flag_add_layer_for_submodel`; whereas on a
layer list whose head is `delta_15` but which *lacks* `dense_0_15`, and on
an empty layer list, the sub-model is built silently with no error.  The
construction therefore does not raise exactly when an expected layer is
absent, contradicting the claim; the undefined-variable slip contradicts
the evident intent of the loop's own flag logic. -/
theorem recurrent_submodel_raises_nameError :
    Define_DH_Delta_Strategy_Model
        ["input_1", "input_2", "concatenate", "dense_0_15", "dense_1_15", "delta_15"]
      = SubmodelBuild.nameError 0
    ∧ Define_DH_Delta_Strategy_Model ["delta_15"] = SubmodelBuild.built [0]
    ∧ Define_DH_Delta_Strategy_Model [] = SubmodelBuild.built [] := by
  refine ⟨?_, ?_, ?_⟩ <;> rfl

/-- C9: `is_running` returns `True` exactly when neither the pause flag nor
the exit flag is set; in particular it returns `False` on a merely paused
(resumable) state, and it returns `True` on the state left behind by a
honored stop request — the exit branch of the loop resets both flags to
`False` before breaking, so after the loop has terminated `is_running`
reports `True`. -/
theorem is_running_flag_semantics (E nb : Nat) (fE : Nat → Nat → Bool) (s t : WState)
    (ht1 : t.exitFlag = true) (ht2 : t.finished = false) (ht3 : t.numEpoch ≤ E) :
    (is_running s = true ↔ (s.pauseFlag = false ∧ s.exitFlag = false))
    ∧ (s.pauseFlag = true → is_running s = false)
    ∧ is_running (loopBody E nb fE t) = true
    ∧ (loopBody E nb fE t).finished = true := by
  refine ⟨?_, ?_, ?_, ?_⟩
  · cases hp : s.pauseFlag <;> cases he : s.exitFlag <;> simp [is_running, hp, he]
  · intro hp
    simp [is_running, hp]
  · simp [loopBody, ht1, ht2, not_lt.mpr ht3, is_running]
  · simp [loopBody, ht1, ht2, not_lt.mpr ht3]

/-- Witness for C9: a paused state and a stop-requested state, evaluated
concretely. -/
theorem is_running_flag_semantics_witness :
    ((⟨true, false, 0, 0, none, [], 0, false, false⟩ : WState).exitFlag = true)
    ∧ ((⟨true, false, 0, 0, none, [], 0, false, false⟩ : WState).finished = false)
    ∧ ((⟨true, false, 0, 0, none, [], 0, false, false⟩ : WState).numEpoch ≤ 1)
    ∧ ((is_running ⟨false, true, 2, 3, some 1, [], 3, false, false⟩ = true
          ↔ ((⟨false, true, 2, 3, some 1, [], 3, false, false⟩ : WState).pauseFlag = false
              ∧ (⟨false, true, 2, 3, some 1, [], 3, false, false⟩ : WState).exitFlag = false))
        ∧ ((⟨false, true, 2, 3, some 1, [], 3, false, false⟩ : WState).pauseFlag = true
              → is_running ⟨false, true, 2, 3, some 1, [], 3, false, false⟩ = false)
        ∧ is_running (loopBody 1 1 noErr ⟨true, false, 0, 0, none, [], 0, false, false⟩) = true
        ∧ (loopBody 1 1 noErr ⟨true, false, 0, 0, none, [], 0, false, false⟩).finished = true) :=
  ⟨rfl, rfl, by decide,
    is_running_flag_semantics 1 1 noErr
      ⟨false, true, 2, 3, some 1, [], 3, false, false⟩
      ⟨true, false, 0, 0, none, [], 0, false, false⟩ rfl rfl (by decide)⟩

/-- C7: setting the exit flag via `stop` makes the loop terminate at the
next iteration boundary, whatever the state was (running mid-epoch,
paused, or already finished): with any positive fuel the loop reaches a
`finished` state having emitted no further snapshot and performed no
further optimizer step, abandoning all remaining scheduled epochs; and
`stop` is idempotent — a second `stop` is a no-op. -/
theorem stop_terminates_without_further_steps (E nb : Nat) (fE : Nat → Nat → Bool)
    (s : WState) (fuel : Nat) (hfuel : 1 ≤ fuel) :
    (run E nb fE fuel (stop s)).finished = true
    ∧ (run E nb fE fuel (stop s)).snaps = s.snaps
    ∧ (run E nb fE fuel (stop s)).optSteps = s.optSteps
    ∧ stop (stop s) = stop s := by
  obtain ⟨f, rfl⟩ : ∃ f, fuel = 1 + f := ⟨fuel - 1, by omega⟩
  rw [run_add, run_one]
  have h := loopBody_stop E nb fE s
  rw [run_of_finished E nb fE f _ h.1]
  exact ⟨h.1, h.2.1, h.2.2, by simp [stop]⟩

/-- Witness for C7: stopping a freshly started worker. -/
theorem stop_terminates_without_further_steps_witness :
    1 ≤ 3
    ∧ ((run 1 1 noErr 3 (stop initState)).finished = true
        ∧ (run 1 1 noErr 3 (stop initState)).snaps = initState.snaps
        ∧ (run 1 1 noErr 3 (stop initState)).optSteps = initState.optSteps
        ∧ stop (stop initState) = stop initState) :=
  ⟨by decide, stop_terminates_without_further_steps 1 1 noErr initState 3 (by decide)⟩

/-- C10, counterexample: on an empty batched dataset (`nb = 0`, as produced
by `Ktrain = 0`), the very first iteration's batch-draw exception is caught
by the bare `except:`, but the re-draw from the re-batched dataset inside
the handler raises again, outside any `try:` — the exception propagates
out of the loop and the thread dies with no snapshot emitted, instead of
training continuing. -/
theorem empty_dataset_redraw_crash :
    (loopBody 2 0 noErr initState).errored = true
    ∧ (loopBody 2 0 noErr initState).finished = true
    ∧ (loopBody 2 0 noErr initState).numEpoch = 1
    ∧ (loopBody 2 0 noErr initState).snaps = [] := by
  decide

/-- C10, amended: provided the re-batched dataset is nonempty (`0 < nb`)
and the processed batch itself does not raise, any exception at the
guarded batch-draw — including the unbound `mini_batch_iter` on the very
first iteration (`iterRem = none`) and iterator exhaustion
(`iterRem = some 0`) — is caught by the unqualified handler and treated as
the end of an epoch: the epoch counter is incremented, the batch counter
is reset (and becomes 1 with the fresh draw), the dataset is reshuffled
and re-batched into a fresh iterator, and training continues in the same
loop iteration with the newly drawn batch. -/
theorem batch_draw_exception_rollover (E nb : Nat) (fE : Nat → Nat → Bool) (s : WState)
    (h1 : s.finished = false) (h2 : s.exitFlag = false) (h3 : s.pauseFlag = false)
    (h4 : s.numEpoch ≤ E) (h5 : s.iterRem = none ∨ s.iterRem = some 0)
    (h6 : 0 < nb) (h7 : fE (s.numEpoch + 1) 1 = false) :
    loopBody E nb fE s =
      { s with numEpoch := s.numEpoch + 1, numBatch := 1, iterRem := some (nb - 1),
               snaps := s.snaps ++ [(s.numEpoch + 1, 1)], optSteps := s.optSteps + 1 } :=
  loopBody_rollover E nb fE s h1 h2 h3 h4 h5 h6 h7

/-- Witness for C10: the epoch-2 rollover of a worker whose epoch-1
iterator is exhausted. -/
theorem batch_draw_exception_rollover_witness :
    ((⟨false, false, 1, 2, some 0, [(1, 1), (1, 2)], 2, false, false⟩ : WState).finished = false)
    ∧ ((⟨false, false, 1, 2, some 0, [(1, 1), (1, 2)], 2, false, false⟩ : WState).exitFlag = false)
    ∧ ((⟨false, false, 1, 2, some 0, [(1, 1), (1, 2)], 2, false, false⟩ : WState).pauseFlag = false)
    ∧ ((⟨false, false, 1, 2, some 0, [(1, 1), (1, 2)], 2, false, false⟩ : WState).numEpoch ≤ 2)
    ∧ noErr 2 1 = false
    ∧ loopBody 2 2 noErr ⟨false, false, 1, 2, some 0, [(1, 1), (1, 2)], 2, false, false⟩
        = ⟨false, false, 2, 1, some 1, [(1, 1), (1, 2), (2, 1)], 3, false, false⟩ := by
  refine ⟨rfl, rfl, rfl, by decide, rfl, ?_⟩
  have h := batch_draw_exception_rollover 2 2 noErr
    ⟨false, false, 1, 2, some 0, [(1, 1), (1, 2)], 2, false, false⟩
    rfl rfl rfl (by decide) (Or.inr rfl) (by decide) rfl
  simpa using h

/-- C3: an exception raised during the forward pass, loss evaluation or
gradient computation of a mini-batch step (`fE` true at the step being
processed, whether the batch was drawn from the current iterator or from
the fresh one built in the except-handler) is caught nowhere in `run`:
the loop terminates immediately with the error propagating out of the
thread, having emitted no snapshot and applied no optimizer step for the
failing batch, and no amount of further fuel resumes training. -/
theorem forward_exception_fatal (E nb : Nat) (fE : Nat → Nat → Bool) (s : WState)
    (r fuel : Nat)
    (h1 : s.finished = false) (h2 : s.exitFlag = false) (h3 : s.pauseFlag = false)
    (h4 : s.numEpoch ≤ E)
    (h5 : (s.iterRem = some (r + 1) ∧ fE s.numEpoch (s.numBatch + 1) = true)
        ∨ ((s.iterRem = none ∨ s.iterRem = some 0) ∧ 0 < nb ∧ fE (s.numEpoch + 1) 1 = true)) :
    (loopBody E nb fE s).errored = true
    ∧ (loopBody E nb fE s).finished = true
    ∧ (loopBody E nb fE s).snaps = s.snaps
    ∧ (loopBody E nb fE s).optSteps = s.optSteps
    ∧ run E nb fE fuel (loopBody E nb fE s) = loopBody E nb fE s := by
  have hcore : (loopBody E nb fE s).errored = true
      ∧ (loopBody E nb fE s).finished = true
      ∧ (loopBody E nb fE s).snaps = s.snaps
      ∧ (loopBody E nb fE s).optSteps = s.optSteps := by
    rcases h5 with ⟨hit, herr⟩ | ⟨hit, hnb, herr⟩
    · simp [loopBody, processBatch, h1, h2, h3, not_lt.mpr h4, hit, herr]
    · obtain ⟨nbp, rfl⟩ := Nat.exists_eq_succ_of_ne_zero (Nat.pos_iff_ne_zero.mp hnb)
      rcases hit with hit | hit <;>
        simp [loopBody, processBatch, h1, h2, h3, not_lt.mpr h4, hit, herr]
  exact ⟨hcore.1, hcore.2.1, hcore.2.2.1, hcore.2.2.2,
    run_of_finished E nb fE fuel _ hcore.2.1⟩

/-- Witness for C3: the forward pass of the very first mini-batch raises. -/
theorem forward_exception_fatal_witness :
    (initState.finished = false)
    ∧ (initState.exitFlag = false)
    ∧ (initState.pauseFlag = false)
    ∧ (initState.numEpoch ≤ 1)
    ∧ ((initState.iterRem = some (0 + 1) ∧ allErr initState.numEpoch (initState.numBatch + 1) = true)
        ∨ ((initState.iterRem = none ∨ initState.iterRem = some 0) ∧ 0 < 1
            ∧ allErr (initState.numEpoch + 1) 1 = true))
    ∧ ((loopBody 1 1 allErr initState).errored = true
        ∧ (loopBody 1 1 allErr initState).finished = true
        ∧ (loopBody 1 1 allErr initState).snaps = initState.snaps
        ∧ (loopBody 1 1 allErr initState).optSteps = initState.optSteps
        ∧ run 1 1 allErr 5 (loopBody 1 1 allErr initState) = loopBody 1 1 allErr initState) :=
  ⟨rfl, rfl, rfl, by decide, Or.inr ⟨Or.inl rfl, by decide, rfl⟩,
    forward_exception_fatal 1 1 allErr initState 0 5 rfl rfl rfl (by decide)
      (Or.inr ⟨Or.inl rfl, by decide, rfl⟩)⟩

/-- C2, counterexample: with `epochs = 2`, `batch_size = 1` and
`Ktrain = 1` the loop terminates on its own but emits 3 snapshots, not
`2 * ceil(1/1) = 2`: after the epoch-2 iterator is exhausted the handler
increments the epoch counter to 3 and processes one further batch before
the while-condition `num_epoch <= epochs` is rechecked. -/
theorem snapshots_schedule_counterexample :
    (run 2 (ceilDiv 1 1) noErr 4 initState).finished = true
    ∧ (run 2 (ceilDiv 1 1) noErr 4 initState).snaps.length ≠ 2 * ceilDiv 1 1 := by
  decide

/-- C2, amended: for every training session configured with `epochs = 2`,
batch size `B > 0` and `Ktrain = K > 0` training paths, the loop (given
enough iterations) terminates on its own with no error and emits exactly
`2 * ceil(K/B) + 1` snapshots — one per mini-batch step of the two
scheduled epochs plus one extra step, the first batch of a third epoch
drawn by the exhaustion handler before the loop condition is rechecked. -/
theorem snapshots_two_epochs (Ktrain batchSize fuel : Nat)
    (hK : 0 < Ktrain) (hB : 0 < batchSize)
    (hfuel : 2 * ceilDiv Ktrain batchSize + 2 ≤ fuel) :
    (run 2 (ceilDiv Ktrain batchSize) noErr fuel initState).finished = true
    ∧ (run 2 (ceilDiv Ktrain batchSize) noErr fuel initState).errored = false
    ∧ (run 2 (ceilDiv Ktrain batchSize) noErr fuel initState).snaps.length
        = 2 * ceilDiv Ktrain batchSize + 1 := by
  have hnb : 0 < ceilDiv Ktrain batchSize := by
    unfold ceilDiv
    exact Nat.div_pos (by omega) hB
  rw [run_complete 2 (ceilDiv Ktrain batchSize) hnb fuel hfuel]
  refine ⟨rfl, rfl, ?_⟩
  simp [epochsEmitted_length]

/-- Witness for C2: `Ktrain = 3`, `batch_size = 2`, so `ceil(K/B) = 2` and
5 snapshots are emitted. -/
theorem snapshots_two_epochs_witness :
    0 < 3 ∧ 0 < 2 ∧ 2 * ceilDiv 3 2 + 2 ≤ 6
    ∧ ((run 2 (ceilDiv 3 2) noErr 6 initState).finished = true
        ∧ (run 2 (ceilDiv 3 2) noErr 6 initState).errored = false
        ∧ (run 2 (ceilDiv 3 2) noErr 6 initState).snaps.length = 2 * ceilDiv 3 2 + 1) :=
  ⟨by decide, by decide, by decide,
    snapshots_two_epochs 3 2 6 (by decide) (by decide) (by decide)⟩

/-- C6: for every valid configuration (nonnegative test fraction) the
split of the `nobs = int(Ktrain*(1+Ktest_ratio))` simulated paths at
`test_size = int(Ktrain*Ktest_ratio)` satisfies: train size plus test size
equals the total number of simulated paths (the train partition is exactly
the `Ktrain` first paths), the two partitions concatenate back to the
whole path list, and the train and test index ranges are disjoint and
together exhaust the path dimension. -/
theorem assemble_split_partition {α : Type} (Ktrain : ℕ) (testFrac : ℚ)
    (hq : 0 ≤ testFrac) (paths : List α)
    (hlen : paths.length = nobs Ktrain testFrac) :
    ((train_test_split paths (test_size Ktrain testFrac)).1.length
        + (train_test_split paths (test_size Ktrain testFrac)).2.length
      = nobs Ktrain testFrac)
    ∧ ((train_test_split paths (test_size Ktrain testFrac)).1
        ++ (train_test_split paths (test_size Ktrain testFrac)).2 = paths)
    ∧ ((train_test_split paths (test_size Ktrain testFrac)).1.length = Ktrain)
    ∧ Disjoint (Finset.range Ktrain) (Finset.Ico Ktrain (nobs Ktrain testFrac))
    ∧ (Finset.range Ktrain ∪ Finset.Ico Ktrain (nobs Ktrain testFrac)
        = Finset.range (nobs Ktrain testFrac)) := by
  have hn := nobs_eq Ktrain testFrac hq
  have h1 : (train_test_split paths (test_size Ktrain testFrac)).1.length = Ktrain := by
    simp only [train_test_split, List.length_take]
    omega
  have h2 : (train_test_split paths (test_size Ktrain testFrac)).2.length
      = test_size Ktrain testFrac := by
    simp only [train_test_split, List.length_drop]
    omega
  refine ⟨by omega, List.take_append_drop _ _, h1, ?_, ?_⟩
  · rw [Finset.range_eq_Ico]
    exact Finset.Ico_disjoint_Ico_consecutive 0 Ktrain (nobs Ktrain testFrac)
  · simp only [Finset.range_eq_Ico]
    exact Finset.Ico_union_Ico_eq_Ico (Nat.zero_le _) (by omega)

/-- Witness for C6: `Ktrain = 4` with test fraction `1/2` gives 6 paths,
test size 2. -/
theorem assemble_split_partition_witness :
    (0 : ℚ) ≤ 1 / 2 ∧ (List.range 6).length = nobs 4 (1 / 2)
    ∧ (((train_test_split (List.range 6) (test_size 4 (1 / 2))).1.length
          + (train_test_split (List.range 6) (test_size 4 (1 / 2))).2.length
        = nobs 4 (1 / 2))
      ∧ ((train_test_split (List.range 6) (test_size 4 (1 / 2))).1
          ++ (train_test_split (List.range 6) (test_size 4 (1 / 2))).2 = List.range 6)
      ∧ ((train_test_split (List.range 6) (test_size 4 (1 / 2))).1.length = 4)
      ∧ Disjoint (Finset.range 4) (Finset.Ico 4 (nobs 4 (1 / 2)))
      ∧ (Finset.range 4 ∪ Finset.Ico 4 (nobs 4 (1 / 2)) = Finset.range (nobs 4 (1 / 2)))) :=
  ⟨by norm_num, by rw [List.length_range]; norm_num [nobs]; decide,
    assemble_split_partition 4 (1 / 2) (by norm_num) (List.range 6)
      (by rw [List.length_range]; norm_num [nobs]; decide)⟩

/-- C8: the entropic loss modelled from the spec satisfies cash
invariance: for every nonempty terminal wealth vector `W`, risk aversion
`lam > 0` and constant `c`, `Entropy (W + c) lam = Entropy W lam - c`. -/
theorem Entropy_cash_invariance (W : List ℝ) (lam c : ℝ)
    (hlam : 0 < lam) (hW : W ≠ []) :
    Entropy (W.map fun w => w + c) lam = Entropy W lam - c := by
  have hlam0 : lam ≠ 0 := ne_of_gt hlam
  have hSpos : 0 < (W.map fun w => Real.exp (-lam * w)).sum := by
    apply List.sum_pos
    · intro x hx
      obtain ⟨w, hw, rfl⟩ := List.mem_map.mp hx
      exact Real.exp_pos _
    · simp [hW]
  have hn : (0 : ℝ) < (W.length : ℝ) := by
    exact_mod_cast List.length_pos.mpr hW
  unfold Entropy
  rw [List.map_map]
  have hcomp : ((fun w => Real.exp (-lam * w)) ∘ fun w => w + c)
      = fun w => Real.exp (-lam * w) * Real.exp (-lam * c) := by
    funext w
    simp only [Function.comp_apply]
    rw [← Real.exp_add]
    congr 1
    ring
  rw [hcomp, List.sum_map_mul_right, List.length_map]
  have hdiv : (W.map fun w => Real.exp (-lam * w)).sum * Real.exp (-lam * c) / (W.length : ℝ)
      = ((W.map fun w => Real.exp (-lam * w)).sum / (W.length : ℝ)) * Real.exp (-lam * c) := by
    ring
  rw [hdiv, Real.log_mul (ne_of_gt (div_pos hSpos hn)) (Real.exp_ne_zero _), Real.log_exp]
  field_simp
  ring

/-- Witness for C8: `W = [0]`, `lam = 1`, `c = 1`. -/
theorem Entropy_cash_invariance_witness :
    (0 : ℝ) < 1 ∧ ([(0 : ℝ)] ≠ [])
    ∧ Entropy ([(0 : ℝ)].map fun w => w + 1) 1 = Entropy [(0 : ℝ)] 1 - 1 :=
  ⟨by norm_num, by simp,
    Entropy_cash_invariance [(0 : ℝ)] 1 1 (by norm_num) (by simp)⟩

/-- C5, counterexample: with the loss-type flag set to `"CVaR"` the worker
still computes the entropic loss (line 154 calls `Entropy`
unconditionally), which on the terminal wealth batch `W = [0, -1]` with
`loss_param = 1/2` differs from the selected measure: the spec-selected
CVaR equals `1` while the loss actually computed is
`2 * log((1 + exp(1/2))/2) < 1`. -/
theorem cvar_selection_ignored :
    selected_loss "CVaR" [0, -1] (1 / 2) = some 1
    ∧ DH_loss "CVaR" [(0 : ℝ), -1] (1 / 2) < 1
    ∧ DH_loss "CVaR" [(0 : ℝ), -1] (1 / 2) ≠ 1 := by
  have hcvar : CVaR [0, -1] (1 / 2) = 1 := by
    norm_num [CVaR, sortAsc, insertAsc]
  have hsel : selected_loss "CVaR" [0, -1] (1 / 2) = some 1 := by
    rw [selected_loss, if_neg (by decide), if_pos rfl, hcvar]
    norm_num
  have hE : DH_loss "CVaR" [(0 : ℝ), -1] (1 / 2)
      = 2 * Real.log ((1 + Real.exp (1 / 2)) / 2) := by
    simp only [DH_loss, Entropy, List.map_cons, List.map_nil, List.sum_cons,
      List.sum_nil, List.length_cons, List.length_nil]
    norm_num
  have hexp : (1 : ℝ) < Real.exp (1 / 2) := by
    have h := Real.add_one_lt_exp (by norm_num : (1 / 2 : ℝ) ≠ 0)
    linarith
  have hpos : (0 : ℝ) < (1 + Real.exp (1 / 2)) / 2 := by positivity
  have harg : (1 + Real.exp (1 / 2)) / 2 < Real.exp (1 / 2) := by linarith
  have hlog := Real.log_lt_log hpos harg
  rw [Real.log_exp] at hlog
  have hlt : DH_loss "CVaR" [(0 : ℝ), -1] (1 / 2) < 1 := by
    rw [hE]
    linarith
  exact ⟨hsel, hlt, ne_of_lt hlt⟩

/-- C5, amended: the scalar loss minimized at each mini-batch step is
always the entropic measure applied to the batch's terminal wealth — the
loss-type flag is never consulted by the training step, so the computed
loss agrees with the flag-selected measure only for the shipped default
`loss_type = "Entropy"`. -/
theorem DH_loss_ignores_flag (lossType : String) (W : List ℝ) (p : ℝ)
    (Wq : List ℚ) (pq : ℚ) :
    DH_loss lossType W p = Entropy W p
    ∧ selected_loss loss_type Wq pq
        = some (DH_loss loss_type (Wq.map fun w => (w : ℝ)) (pq : ℝ)) :=
  ⟨rfl, rfl⟩

end DeepHedging
